import Mathlib

/-!
Verification of the hydraulic advance-time model of
`src/time_advance_streamlit.py`.

The script is embedded over the real numbers: every pandas column becomes a
function from the 1-based row index to `ℝ`, and a column slot that the script
leaves as NaN is modelled as `none` of `Option ℝ`.  Cumulative sums are the
structural recursions below (pandas `sum`/`cumsum` skip NaN entries, which the
`Option.getD 0` in the running sums reproduces).  Python `**` on positive
reals is `Real.rpow`, written `^` with a real exponent; `** 2` is the exact
square `^ (2 : ℕ)`.  Python `int` truncation of the positive quotients that
occur here is `Nat.floor`.
-/

namespace TimeAdvance

noncomputable section

/-- The four scalar input parameters (source lines 30-33): emitter flow `q`
(L/h), emitter spacing `S` (m), dripline length `L` (m), internal diameter
`dia` (mm). -/
structure Inputs where
  q : ℝ
  S : ℝ
  L : ℝ
  dia : ℝ

/-- Empirical travel time in minutes, source lines 39-43:
`TT_empirical = 0.0912 * ((S ** 0.7824) * (L ** 0.1928) * (dia ** 2)) / q`. -/
def TT_empirical (p : Inputs) : ℝ :=
  0.0912 * (p.S ^ (0.7824 : ℝ) * p.L ^ (0.1928 : ℝ) * p.dia ^ (2 : ℕ)) / p.q

/-- `TT_95_empirical = TT_empirical / 2`, source line 45.  The script computes
this value but never uses it again. -/
def TT_95_empirical (p : Inputs) : ℝ := TT_empirical p / 2

/-- Number of table rows, `outlets = int(L / S)`, source line 51.  For the
positive quotients considered here Python `int` truncation is the floor. -/
def outlets (p : Inputs) : ℕ := ⌊p.L / p.S⌋₊

/-- `Q_total = outlets * q`, source line 58. -/
def Q_total (p : Inputs) : ℝ := (outlets p : ℝ) * p.q

/-- Column `long_acum = index * S`, source line 56; rows are indexed
`1..outlets`. -/
def long_acum (p : Inputs) (i : ℕ) : ℝ := (i : ℝ) * p.S

/-- Column `q_tramo = Q_total - index * q`, source line 59. -/
def q_tramo (p : Inputs) (i : ℕ) : ℝ := Q_total p - (i : ℝ) * p.q

/-- `Area = np.pi * (dia / 2000)**2`, source line 61. -/
def Area (p : Inputs) : ℝ := Real.pi * (p.dia / 2000) ^ (2 : ℕ)

/-- Raw row velocity `q_tramo / 1000 / 3600 / Area`, source line 64 (m/s). -/
def v_raw (p : Inputs) (i : ℕ) : ℝ := q_tramo p i / 1000 / 3600 / Area p

/-- Column `v_tramo` after `replace(0, np.nan)` and the forward fill of source
lines 64-68.  `none` models a NaN slot: a row whose raw velocity is exactly
zero takes the value of the nearest earlier row with non-zero raw velocity,
and stays NaN when every earlier row is zero as well (row 0 is the empty
virtual predecessor of row 1). -/
def v_tramo (p : Inputs) : ℕ → Option ℝ
  | 0 => none
  | i + 1 => if v_raw p (i + 1) = 0 then v_tramo p i else some (v_raw p (i + 1))

/-- Column `t_tramo = S / v_tramo` before scaling, source line 71 (seconds). -/
def t_tramo (p : Inputs) (i : ℕ) : Option ℝ :=
  (v_tramo p i).map (fun v => p.S / v)

/-- Running sum of the raw `t_tramo` column over rows `1..n`; a NaN row
contributes nothing, matching pandas `sum` with its default `skipna=True`. -/
def t_raw_sum (p : Inputs) : ℕ → ℝ
  | 0 => 0
  | n + 1 => t_raw_sum p n + (t_tramo p (n + 1)).getD 0

/-- `TT_hydraulic_minutes = df["t_tramo"].sum() / 60`, source line 77. -/
def TT_hydraulic_minutes (p : Inputs) : ℝ := t_raw_sum p (outlets p) / 60

/-- Source line 79 with the empirical anchor generalized:
`scale_factor = E / TT_hydraulic_minutes`.  The script runs it with
`E = TT_empirical`; keeping `E` a parameter lets the frame property of the
rescale be stated. -/
def scale_factor_anchored (p : Inputs) (E : ℝ) : ℝ := E / TT_hydraulic_minutes p

/-- `scale_factor = TT_empirical / TT_hydraulic_minutes`, source line 79. -/
def scale_factor (p : Inputs) : ℝ := scale_factor_anchored p (TT_empirical p)

/-- Column `t_tramo` after the in-place rescale of source line 81, anchored at
`E`. -/
def t_tramo_scaled_anchored (p : Inputs) (E : ℝ) (i : ℕ) : Option ℝ :=
  (t_tramo p i).map (fun t => t * scale_factor_anchored p E)

/-- Column `t_tramo` after source line 81 (`t_tramo * scale_factor`). -/
def t_tramo_scaled (p : Inputs) (i : ℕ) : Option ℝ :=
  t_tramo_scaled_anchored p (TT_empirical p) i

/-- Running sum of the rescaled `t_tramo` column over rows `1..n` (NaN rows
skipped, as pandas `cumsum` does). -/
def t_scaled_sum (p : Inputs) (E : ℝ) : ℕ → ℝ
  | 0 => 0
  | n + 1 => t_scaled_sum p E n + (t_tramo_scaled_anchored p E (n + 1)).getD 0

/-- Column `t_acum = t_tramo.cumsum() / 60`, source line 83, anchored at `E`:
row `i` holds the running sum over rows `1..i` divided by 60, and a NaN
`t_tramo` row stays NaN. -/
def t_acum_anchored (p : Inputs) (E : ℝ) (i : ℕ) : Option ℝ :=
  if (t_tramo_scaled_anchored p E i).isSome then some (t_scaled_sum p E i / 60)
  else none

/-- Column `t_acum` of the script (anchor `TT_empirical`). -/
def t_acum (p : Inputs) (i : ℕ) : Option ℝ :=
  t_acum_anchored p (TT_empirical p) i

/-- `index_95 = int(outlets * 0.95)`, source line 87. -/
def index_95 (p : Inputs) : ℕ := ⌊(outlets p : ℝ) * 0.95⌋₊

/-- `travel_time_95 = df.loc[index_95, "t_acum"]`, source line 88: the lookup
succeeds only when `index_95` is one of the row labels `1..outlets` (otherwise
the script raises `KeyError`, modelled as `none`); a NaN cell is also `none`.
The rounding of the displayed value to 4 decimals is not modelled. -/
def travel_time_95 (p : Inputs) : Option ℝ :=
  if 1 ≤ index_95 p ∧ index_95 p ≤ outlets p then t_acum p (index_95 p)
  else none

/-- `travel_time = df["t_acum"].iloc[-1]`, source line 85: the last row of
`t_acum`, defined only when the table is non-empty.  Rounding to 4 decimals is
not modelled. -/
def travel_time (p : Inputs) : Option ℝ :=
  if 1 ≤ outlets p then t_acum p (outlets p) else none

/-- Column `headloss`, source line 94:
`1.131 * 10**9 * (q_tramo / 1000 / 140)**1.852 * S * dia**-4.872`. -/
def headloss (p : Inputs) (i : ℕ) : ℝ :=
  1.131 * 10 ^ (9 : ℕ) * (q_tramo p i / 1000 / 140) ^ (1.852 : ℝ) * p.S *
    p.dia ^ (-4.872 : ℝ)

/-- Column `HL_acum = headloss.cumsum()`, source line 95: row `i` holds the sum
of `headloss` over rows `1..i`. -/
def HL_acum (p : Inputs) : ℕ → ℝ
  | 0 => 0
  | n + 1 => HL_acum p n + headloss p (n + 1)

/-- `HF = df["headloss"].sum()`, source line 97 (display rounding to 3 decimals
not modelled). -/
def HF (p : Inputs) : ℝ := HL_acum p (outlets p)

/-- The data columns of the result table produced by one run of the script. -/
structure Results where
  long_acum : ℕ → ℝ
  q_tramo : ℕ → ℝ
  v_tramo : ℕ → Option ℝ
  t_acum : ℕ → Option ℝ
  headloss : ℕ → ℝ
  HL_acum : ℕ → ℝ

/-- One run of the computation, with the anchor of the rescaling step left as
the parameter `E` (the script uses `E = TT_empirical`). -/
def runScript_anchored (p : Inputs) (E : ℝ) : Results where
  long_acum := long_acum p
  q_tramo := q_tramo p
  v_tramo := v_tramo p
  t_acum := t_acum_anchored p E
  headloss := headloss p
  HL_acum := HL_acum p

/-- One run of the computation exactly as the script performs it. -/
def runScript (p : Inputs) : Results := runScript_anchored p (TT_empirical p)

/-- `st.sidebar.number_input(label, lo, hi, default)`, source lines 30-33: the
widget hands the script a value only when it lies within `[lo, hi]`; an
out-of-range candidate never reaches the computation. -/
def number_input (lo hi v : ℝ) : Option ℝ :=
  if lo ≤ v ∧ v ≤ hi then some v else none

/-- The four sidebar widgets with the bounds of source lines 30-33. -/
def readInputs (q S L dia : ℝ) : Option Inputs :=
  (number_input 0.1 10 q).bind fun q0 =>
    (number_input 0.05 2 S).bind fun S0 =>
      (number_input 10 1000 L).bind fun L0 =>
        (number_input 8 40 dia).map fun d0 => ⟨q0, S0, L0, d0⟩

/-- The whole app: parameters accepted by the widgets, then the computation. -/
def runApp (q S L dia : ℝ) : Option Results :=
  (readInputs q S L dia).map runScript

/-- The empirical formula exactly as the specification writes it:
`travelTimeFull = 0.0912 * spacing^0.7824 * length^0.1928 * diameter^2 /
emitterFlow` (for comparison with `TT_empirical`). -/
def travelTimeFull_spec (q S L dia : ℝ) : ℝ :=
  0.0912 * S ^ (0.7824 : ℝ) * L ^ (0.1928 : ℝ) * dia ^ (2 : ℝ) / q

/-- The head-loss formula with the segment flow in L/h fed directly to the
Hazen-Williams form, with no division by 1000 (for comparison with
`headloss`). -/
def headloss_claimed (p : Inputs) (i : ℕ) : ℝ :=
  1.131 * 10 ^ (9 : ℕ) * (q_tramo p i / 140) ^ (1.852 : ℝ) * p.S *
    p.dia ^ (-4.872 : ℝ)

/-- The default parameter set of the sidebar (source lines 30-33):
`q = 1.0`, `S = 0.5`, `L = 150.0`, `dia = 20.2`. -/
def p_default : Inputs := ⟨1, 0.5, 150, 20.2⟩

/-- A small parameter set with three rows: `q = 1`, `S = 1`, `L = 3.5`,
`dia = 20`, so `⌊L/S⌋ = 3`. -/
def p_three : Inputs := ⟨1, 1, 3.5, 20⟩

/-- A parameter set with a single row: `q = 1`, `S = 1`, `L = 1.5`, `dia = 20`,
so `⌊L/S⌋ = 1` and `L > S`. -/
def p_onerow : Inputs := ⟨1, 1, 1.5, 20⟩

end

/-! ### Basic facts about the columns -/

lemma q_tramo_eq (p : Inputs) (i : ℕ) :
    q_tramo p i = ((outlets p : ℝ) - i) * p.q := by
  unfold q_tramo Q_total; ring

lemma q_tramo_outlets (p : Inputs) : q_tramo p (outlets p) = 0 := by
  rw [q_tramo_eq]; ring

lemma q_tramo_pos (p : Inputs) (hq : 0 < p.q) {i : ℕ} (hi : i < outlets p) :
    0 < q_tramo p i := by
  rw [q_tramo_eq]
  have h0 : (i : ℝ) < (outlets p : ℝ) := by exact_mod_cast hi
  have h1 : (0 : ℝ) < (outlets p : ℝ) - i := by linarith
  exact mul_pos h1 hq

lemma q_tramo_nonneg (p : Inputs) (hq : 0 < p.q) {i : ℕ} (hi : i ≤ outlets p) :
    0 ≤ q_tramo p i := by
  rcases eq_or_lt_of_le hi with heq | hlt
  · subst heq; rw [q_tramo_outlets]
  · exact le_of_lt (q_tramo_pos p hq hlt)

lemma Area_pos (p : Inputs) (hdia : 0 < p.dia) : 0 < Area p := by
  unfold Area
  have h : (0 : ℝ) < p.dia / 2000 := by positivity
  positivity

lemma v_raw_pos (p : Inputs) (hq : 0 < p.q) (hdia : 0 < p.dia) {i : ℕ}
    (hi : i < outlets p) : 0 < v_raw p i := by
  unfold v_raw
  have h1 := q_tramo_pos p hq hi
  have h2 := Area_pos p hdia
  positivity

lemma v_raw_outlets (p : Inputs) : v_raw p (outlets p) = 0 := by
  unfold v_raw; rw [q_tramo_outlets]; simp

lemma v_tramo_of_ne {p : Inputs} {i : ℕ} (h1 : 1 ≤ i) (h : v_raw p i ≠ 0) :
    v_tramo p i = some (v_raw p i) := by
  cases i with
  | zero => exact absurd h1 (by omega)
  | succ j => simp only [v_tramo]; rw [if_neg h]

lemma v_tramo_outlets (p : Inputs) (hq : 0 < p.q) (hdia : 0 < p.dia)
    (hN : 2 ≤ outlets p) :
    v_tramo p (outlets p) = some (v_raw p (outlets p - 1)) ∧
      v_tramo p (outlets p) = v_tramo p (outlets p - 1) := by
  obtain ⟨m, hm⟩ : ∃ m, outlets p = m + 1 := ⟨outlets p - 1, by omega⟩
  have hm1 : 1 ≤ m := by omega
  have hlt : m < outlets p := by omega
  have hprev : v_tramo p m = some (v_raw p m) :=
    v_tramo_of_ne hm1 (v_raw_pos p hq hdia hlt).ne'
  have hz : v_raw p (m + 1) = 0 := by rw [← hm]; exact v_raw_outlets p
  have hsub : outlets p - 1 = m := by omega
  constructor
  · rw [hm]; simp only [v_tramo]; rw [if_pos hz, hprev]; simp
  · rw [hsub, hm]; simp only [v_tramo]; rw [if_pos hz]

lemma t_tramo_of_lt (p : Inputs) (hq : 0 < p.q) (hdia : 0 < p.dia) {i : ℕ}
    (h1 : 1 ≤ i) (hi : i < outlets p) :
    t_tramo p i = some (p.S / v_raw p i) := by
  unfold t_tramo
  rw [v_tramo_of_ne h1 (v_raw_pos p hq hdia hi).ne']
  rfl

lemma t_tramo_some_pos (p : Inputs) (hq : 0 < p.q) (hS : 0 < p.S)
    (hdia : 0 < p.dia) (hN : 2 ≤ outlets p) {i : ℕ} (h1 : 1 ≤ i)
    (hi : i ≤ outlets p) : ∃ t, t_tramo p i = some t ∧ 0 < t := by
  rcases eq_or_lt_of_le hi with heq | hlt
  · subst heq
    refine ⟨p.S / v_raw p (outlets p - 1), ?_, ?_⟩
    · unfold t_tramo
      rw [(v_tramo_outlets p hq hdia hN).1]
      rfl
    · exact div_pos hS (v_raw_pos p hq hdia (by omega))
  · exact ⟨p.S / v_raw p i, t_tramo_of_lt p hq hdia h1 hlt,
      div_pos hS (v_raw_pos p hq hdia hlt)⟩

lemma t_raw_sum_pos (p : Inputs) (hq : 0 < p.q) (hS : 0 < p.S)
    (hdia : 0 < p.dia) (hN : 2 ≤ outlets p) :
    ∀ n, 1 ≤ n → n ≤ outlets p → 0 < t_raw_sum p n := by
  intro n
  induction n with
  | zero => intro h; exact absurd h (by omega)
  | succ m ih =>
    intro _ hle
    obtain ⟨t, ht, htpos⟩ :=
      t_tramo_some_pos p hq hS hdia hN (i := m + 1) (by omega) hle
    rcases Nat.eq_zero_or_pos m with hm | hm
    · subst hm
      have hsum : t_raw_sum p 1 = 0 + t := by simp [t_raw_sum, ht]
      rw [hsum]; linarith
    · have hpos := ih (by omega) (by omega)
      have hsum : t_raw_sum p (m + 1) = t_raw_sum p m + t := by
        simp [t_raw_sum, ht]
      rw [hsum]; linarith

lemma t_scaled_sum_eq (p : Inputs) (E : ℝ) :
    ∀ n, t_scaled_sum p E n = t_raw_sum p n * scale_factor_anchored p E := by
  intro n
  induction n with
  | zero => simp [t_scaled_sum, t_raw_sum]
  | succ m ih =>
    simp only [t_scaled_sum, t_raw_sum, ih]
    cases h : t_tramo p (m + 1) with
    | none => simp [t_tramo_scaled_anchored, h]
    | some t => simp [t_tramo_scaled_anchored, h]; ring

lemma t_acum_eq (p : Inputs) (hq : 0 < p.q) (hS : 0 < p.S) (hdia : 0 < p.dia)
    (hN : 2 ≤ outlets p) {i : ℕ} (h1 : 1 ≤ i) (hi : i ≤ outlets p) :
    t_acum p i = some (t_raw_sum p i * scale_factor p / 60) := by
  obtain ⟨t, ht, -⟩ := t_tramo_some_pos p hq hS hdia hN h1 hi
  simp [t_acum, t_acum_anchored, t_tramo_scaled_anchored, ht,
    t_scaled_sum_eq, scale_factor]

lemma TT_empirical_pos (p : Inputs) (hq : 0 < p.q) (hS : 0 < p.S)
    (hL : 0 < p.L) (hdia : 0 < p.dia) : 0 < TT_empirical p := by
  unfold TT_empirical; positivity

lemma TT_hydraulic_pos (p : Inputs) (hq : 0 < p.q) (hS : 0 < p.S)
    (hdia : 0 < p.dia) (hN : 2 ≤ outlets p) : 0 < TT_hydraulic_minutes p := by
  have h := t_raw_sum_pos p hq hS hdia hN (outlets p) (by omega) le_rfl
  unfold TT_hydraulic_minutes
  linarith

lemma scale_factor_pos (p : Inputs) (hq : 0 < p.q) (hS : 0 < p.S)
    (hL : 0 < p.L) (hdia : 0 < p.dia) (hN : 2 ≤ outlets p) :
    0 < scale_factor p := by
  unfold scale_factor scale_factor_anchored
  exact div_pos (TT_empirical_pos p hq hS hL hdia) (TT_hydraulic_pos p hq hS hdia hN)

lemma headloss_nonneg (p : Inputs) (hq : 0 < p.q) (hS : 0 < p.S)
    (hdia : 0 < p.dia) {i : ℕ} (hi : i ≤ outlets p) : 0 ≤ headloss p i := by
  unfold headloss
  have h0 := q_tramo_nonneg p hq hi
  have hbase : (0 : ℝ) ≤ q_tramo p i / 1000 / 140 := by positivity
  have hpow : (0 : ℝ) ≤ (q_tramo p i / 1000 / 140) ^ (1.852 : ℝ) :=
    Real.rpow_nonneg hbase _
  have hdpow : (0 : ℝ) < p.dia ^ (-4.872 : ℝ) := Real.rpow_pos_of_pos hdia _
  positivity

/-! ### Evaluation at concrete parameter sets -/

lemma outlets_default : outlets p_default = 300 := by
  have h : p_default.L / p_default.S = ((300 : ℕ) : ℝ) := by
    norm_num [p_default]
  unfold outlets
  rw [h, Nat.floor_natCast]

lemma q_tramo_default : q_tramo p_default 1 = 299 := by
  rw [q_tramo_eq, outlets_default]
  norm_num [p_default]

lemma outlets_three : outlets p_three = 3 := by
  have h : p_three.L / p_three.S = (3.5 : ℝ) := by norm_num [p_three]
  unfold outlets
  rw [h, Nat.floor_eq_iff (by norm_num)]
  norm_num

lemma index_95_three : index_95 p_three = 2 := by
  unfold index_95
  rw [outlets_three, Nat.floor_eq_iff (by norm_num)]
  norm_num

lemma q_tramo_three (i : ℕ) : q_tramo p_three i = 3 - (i : ℝ) := by
  rw [q_tramo_eq, outlets_three]
  norm_num [p_three]

lemma Area_three : Area p_three = Real.pi * (1 / 10000) := by
  unfold Area
  norm_num [p_three]

lemma v_raw_three_one : v_raw p_three 1 = 1 / (180 * Real.pi) := by
  unfold v_raw
  rw [q_tramo_three, Area_three]
  have hpi := Real.pi_ne_zero
  push_cast
  field_simp
  ring

lemma v_raw_three_two : v_raw p_three 2 = 1 / (360 * Real.pi) := by
  unfold v_raw
  rw [q_tramo_three, Area_three]
  have hpi := Real.pi_ne_zero
  push_cast
  field_simp
  ring

lemma v_raw_three_three : v_raw p_three 3 = 0 := by
  unfold v_raw
  rw [q_tramo_three]
  norm_num

lemma v_tramo_three_one : v_tramo p_three 1 = some (1 / (180 * Real.pi)) := by
  rw [← v_raw_three_one]
  refine v_tramo_of_ne le_rfl ?_
  rw [v_raw_three_one]
  have hpi := Real.pi_pos
  positivity

lemma v_tramo_three_two : v_tramo p_three 2 = some (1 / (360 * Real.pi)) := by
  rw [← v_raw_three_two]
  refine v_tramo_of_ne (by norm_num) ?_
  rw [v_raw_three_two]
  have hpi := Real.pi_pos
  positivity

lemma v_tramo_three_three : v_tramo p_three 3 = some (1 / (360 * Real.pi)) := by
  show v_tramo p_three (2 + 1) = _
  simp only [v_tramo]
  rw [if_pos v_raw_three_three]
  exact v_tramo_three_two

lemma t_tramo_three_one : t_tramo p_three 1 = some (180 * Real.pi) := by
  unfold t_tramo
  rw [v_tramo_three_one]
  simp only [Option.map_some']
  congr 1
  rw [show p_three.S = 1 from rfl, one_div_one_div]

lemma t_tramo_three_two : t_tramo p_three 2 = some (360 * Real.pi) := by
  unfold t_tramo
  rw [v_tramo_three_two]
  simp only [Option.map_some']
  congr 1
  rw [show p_three.S = 1 from rfl, one_div_one_div]

lemma t_tramo_three_three : t_tramo p_three 3 = some (360 * Real.pi) := by
  unfold t_tramo
  rw [v_tramo_three_three]
  simp only [Option.map_some']
  congr 1
  rw [show p_three.S = 1 from rfl, one_div_one_div]

lemma t_raw_sum_three_two : t_raw_sum p_three 2 = 540 * Real.pi := by
  have h2 : t_raw_sum p_three 2 =
      t_raw_sum p_three 1 + (t_tramo p_three 2).getD 0 := rfl
  have h1 : t_raw_sum p_three 1 =
      t_raw_sum p_three 0 + (t_tramo p_three 1).getD 0 := rfl
  have h0 : t_raw_sum p_three 0 = 0 := rfl
  rw [h2, h1, h0, t_tramo_three_one, t_tramo_three_two]
  simp only [Option.getD_some, zero_add]
  ring

lemma t_raw_sum_three : t_raw_sum p_three 3 = 900 * Real.pi := by
  have h3 : t_raw_sum p_three 3 =
      t_raw_sum p_three 2 + (t_tramo p_three 3).getD 0 := rfl
  rw [h3, t_raw_sum_three_two, t_tramo_three_three]
  simp only [Option.getD_some]
  ring

lemma t_acum_three_two :
    t_acum p_three 2 = some (3 / 5 * TT_empirical p_three) := by
  rw [t_acum_eq p_three (by norm_num [p_three]) (by norm_num [p_three])
    (by norm_num [p_three]) (by rw [outlets_three]; norm_num) (by norm_num)
    (by rw [outlets_three]; norm_num)]
  congr 1
  rw [t_raw_sum_three_two]
  unfold scale_factor scale_factor_anchored TT_hydraulic_minutes
  rw [outlets_three, t_raw_sum_three]
  have hpi := Real.pi_ne_zero
  field_simp
  ring

lemma TT_empirical_three_pos : 0 < TT_empirical p_three := by
  refine TT_empirical_pos p_three ?_ ?_ ?_ ?_ <;> norm_num [p_three]

lemma outlets_onerow : outlets p_onerow = 1 := by
  have h : p_onerow.L / p_onerow.S = (1.5 : ℝ) := by norm_num [p_onerow]
  unfold outlets
  rw [h, Nat.floor_eq_iff (by norm_num)]
  norm_num

lemma index_95_of_one {p : Inputs} (h1 : outlets p = 1) : index_95 p = 0 := by
  unfold index_95
  rw [h1, Nat.floor_eq_zero]
  norm_num

lemma number_input_nonpos {lo hi v : ℝ} (hlo : 0 < lo) (h : v ≤ 0) :
    number_input lo hi v = none := by
  unfold number_input
  rw [if_neg]
  rintro ⟨h1, -⟩
  linarith

/-! ### Claim theorems -/

/-- C1: after the reconciliation step that rescales every row's raw travel
time by `scale_factor = TT_empirical / TT_hydraulic_minutes`, the last row of
the cumulative travel-time column equals the empirical travel time exactly,
hence in particular within a relative tolerance of `1e-6`. -/
theorem C1_reconciliation (p : Inputs) (hq : 0 < p.q) (hS : 0 < p.S)
    (hdia : 0 < p.dia) (hN : 2 ≤ outlets p) :
    t_acum p (outlets p) = some (TT_empirical p) ∧
      ∀ t, t_acum p (outlets p) = some t →
        |t - TT_empirical p| ≤ 1e-6 * |TT_empirical p| := by
  have hsum := t_raw_sum_pos p hq hS hdia hN (outlets p) (by omega) le_rfl
  have hne : t_raw_sum p (outlets p) ≠ 0 := ne_of_gt hsum
  have hmain : t_acum p (outlets p) = some (TT_empirical p) := by
    rw [t_acum_eq p hq hS hdia hN (by omega) le_rfl]
    congr 1
    unfold scale_factor scale_factor_anchored TT_hydraulic_minutes
    field_simp
  refine ⟨hmain, ?_⟩
  intro t ht
  rw [hmain] at ht
  have hEq : t = TT_empirical p := (Option.some.inj ht).symm
  subst hEq
  rw [sub_self, abs_zero]
  positivity

/-- C1 witness at the default sidebar parameters. -/
theorem C1_witness :
    0 < p_default.q ∧ 2 ≤ outlets p_default ∧
      t_acum p_default (outlets p_default) = some (TT_empirical p_default) := by
  refine ⟨by norm_num [p_default], by rw [outlets_default]; norm_num, ?_⟩
  exact (C1_reconciliation p_default (by norm_num [p_default])
    (by norm_num [p_default]) (by norm_num [p_default])
    (by rw [outlets_default]; norm_num)).1

/-- C2: the empirical travel time computed by the program coincides with the
specification's closed form `0.0912 * S^0.7824 * L^0.1928 * dia^2 / q`, in
particular at the concrete scenario `S = 0.5, L = 150, dia = 20.2, q = 1`
(so the two agree to every decimal place, not just four). -/
theorem C2_empirical_formula (p : Inputs) (hq : 0 < p.q) (hS : 0 < p.S)
    (hL : 0 < p.L) (hdia : 0 < p.dia) :
    TT_empirical p = travelTimeFull_spec p.q p.S p.L p.dia ∧
      TT_empirical p_default =
        0.0912 * (0.5 : ℝ) ^ (0.7824 : ℝ) * (150 : ℝ) ^ (0.1928 : ℝ) *
          (20.2 : ℝ) ^ (2 : ℝ) / 1 := by
  constructor
  · unfold TT_empirical travelTimeFull_spec
    rw [show (2 : ℝ) = ((2 : ℕ) : ℝ) by norm_num, Real.rpow_natCast]
    ring
  · simp only [TT_empirical, p_default]
    rw [show (2 : ℝ) = ((2 : ℕ) : ℝ) by norm_num, Real.rpow_natCast]
    ring

/-- C2 witness at the default sidebar parameters. -/
theorem C2_witness :
    TT_empirical p_default =
      travelTimeFull_spec p_default.q p_default.S p_default.L p_default.dia :=
  (C2_empirical_formula p_default (by norm_num [p_default])
    (by norm_num [p_default]) (by norm_num [p_default])
    (by norm_num [p_default])).1

/-- C4: the model uses `N = ⌊L/S⌋` rows; row `i`'s flow is `Q_total - i*q`,
decreases by exactly `q` from one row to the next (strictly, since `q > 0`),
and is exactly zero at row `N`. -/
theorem C4_segment_flow (p : Inputs) (hq : 0 < p.q) :
    outlets p = ⌊p.L / p.S⌋₊ ∧
      (∀ i, q_tramo p i = ((outlets p : ℝ) - i) * p.q) ∧
      (∀ i, q_tramo p (i + 1) = q_tramo p i - p.q ∧
        q_tramo p (i + 1) < q_tramo p i) ∧
      q_tramo p (outlets p) = 0 := by
  refine ⟨rfl, fun i => q_tramo_eq p i, fun i => ⟨?_, ?_⟩, q_tramo_outlets p⟩
  · rw [q_tramo_eq, q_tramo_eq]; push_cast; ring
  · rw [q_tramo_eq, q_tramo_eq]
    push_cast
    have h : (outlets p : ℝ) - ((i : ℝ) + 1) < (outlets p : ℝ) - (i : ℝ) := by
      linarith
    exact mul_lt_mul_of_pos_right h hq

/-- C4 witness at the default sidebar parameters. -/
theorem C4_witness :
    0 < p_default.q ∧ q_tramo p_default (outlets p_default) = 0 :=
  ⟨by norm_num [p_default],
    (C4_segment_flow p_default (by norm_num [p_default])).2.2.2⟩

/-- C5: with at least two rows, the zero flow of the last row is recovered by
carrying the previous row's velocity forward: the last velocity equals the
second-to-last one exactly, is a defined strictly positive real (not NaN and
not infinite), and every row's travel time `S / velocity` is a defined
strictly positive real; no error is raised. -/
theorem C5_zero_flow_fill (p : Inputs) (hq : 0 < p.q) (hS : 0 < p.S)
    (hdia : 0 < p.dia) (hN : 2 ≤ outlets p) :
    v_tramo p (outlets p) = v_tramo p (outlets p - 1) ∧
      (∃ v, v_tramo p (outlets p) = some v ∧ 0 < v) ∧
      ∀ i, 1 ≤ i → i ≤ outlets p → ∃ t, t_tramo p i = some t ∧ 0 < t := by
  obtain ⟨h1, h2⟩ := v_tramo_outlets p hq hdia hN
  exact ⟨h2, ⟨v_raw p (outlets p - 1), h1, v_raw_pos p hq hdia (by omega)⟩,
    fun i hi1 hi2 => t_tramo_some_pos p hq hS hdia hN hi1 hi2⟩

/-- C5 witness at the default sidebar parameters. -/
theorem C5_witness :
    v_tramo p_default (outlets p_default) =
      v_tramo p_default (outlets p_default - 1) :=
  (C5_zero_flow_fill p_default (by norm_num [p_default])
    (by norm_num [p_default]) (by norm_num [p_default])
    (by rw [outlets_default]; norm_num)).1

/-- C7: the cumulative travel-time column is strictly increasing over the rows
and the cumulative head-loss column is non-decreasing, every per-row head loss
being non-negative. -/
theorem C7_monotone (p : Inputs) (hq : 0 < p.q) (hS : 0 < p.S) (hL : 0 < p.L)
    (hdia : 0 < p.dia) (hN : 2 ≤ outlets p) :
    (∀ i, 1 ≤ i → i < outlets p →
        ∃ a b, t_acum p i = some a ∧ t_acum p (i + 1) = some b ∧ a < b) ∧
      (∀ i, 1 ≤ i → i ≤ outlets p → 0 ≤ headloss p i) ∧
      ∀ i, i < outlets p → HL_acum p i ≤ HL_acum p (i + 1) := by
  have hscale := scale_factor_pos p hq hS hL hdia hN
  refine ⟨?_, fun i h1 h2 => headloss_nonneg p hq hS hdia h2, ?_⟩
  · intro i h1 h2
    refine ⟨t_raw_sum p i * scale_factor p / 60,
      t_raw_sum p (i + 1) * scale_factor p / 60,
      t_acum_eq p hq hS hdia hN h1 (by omega),
      t_acum_eq p hq hS hdia hN (by omega) (by omega), ?_⟩
    obtain ⟨t, ht, htpos⟩ :=
      t_tramo_some_pos p hq hS hdia hN (i := i + 1) (by omega) (by omega)
    have hstep : t_raw_sum p (i + 1) = t_raw_sum p i + t := by
      simp [t_raw_sum, ht]
    rw [hstep]
    have hts : 0 < t * scale_factor p := mul_pos htpos hscale
    have hexp : (t_raw_sum p i + t) * scale_factor p =
        t_raw_sum p i * scale_factor p + t * scale_factor p := by ring
    rw [hexp]
    linarith
  · intro i h2
    have hnn := headloss_nonneg p hq hS hdia (i := i + 1) (by omega)
    have hstep : HL_acum p (i + 1) = HL_acum p i + headloss p (i + 1) := rfl
    rw [hstep]
    linarith

/-- C7 witness at the default sidebar parameters. -/
theorem C7_witness :
    ∃ a b, t_acum p_default 1 = some a ∧ t_acum p_default 2 = some b ∧
      a < b :=
  (C7_monotone p_default (by norm_num [p_default]) (by norm_num [p_default])
    (by norm_num [p_default]) (by norm_num [p_default])
    (by rw [outlets_default]; norm_num)).1 1 le_rfl
    (by rw [outlets_default]; norm_num)

/-- C8: a non-positive candidate for any of the four parameters is refused by
its bounded sidebar widget (source lines 30-33, all lower bounds positive), so
the segmented computation never starts and the app produces no result at all,
partial or otherwise. -/
theorem C8_reject_nonpositive (q S L dia : ℝ)
    (h : q ≤ 0 ∨ S ≤ 0 ∨ L ≤ 0 ∨ dia ≤ 0) :
    runApp q S L dia = none := by
  have hri : readInputs q S L dia = none := by
    unfold readInputs
    rcases h with h | h | h | h
    · rw [number_input_nonpos (by norm_num) h]
      rfl
    · simp only [number_input_nonpos (show (0 : ℝ) < 0.05 by norm_num) h]
      cases number_input 0.1 10 q <;> rfl
    · simp only [number_input_nonpos (show (0 : ℝ) < 10 by norm_num) h]
      cases number_input 0.1 10 q <;> cases number_input 0.05 2 S <;> rfl
    · simp only [number_input_nonpos (show (0 : ℝ) < 8 by norm_num) h]
      cases number_input 0.1 10 q <;> cases number_input 0.05 2 S <;>
        cases number_input 10 1000 L <;> rfl
  unfold runApp
  rw [hri]
  rfl

/-- C8 witness: a zero emitter flow is rejected outright. -/
theorem C8_witness : runApp 0 0.5 150 20.2 = none :=
  C8_reject_nonpositive 0 0.5 150 20.2 (Or.inl le_rfl)

/-- C3 counterexample: at the default parameters, row 1 of the computed
head-loss column is strictly smaller than — hence different from — the
claim's formula, which feeds the segment flow in L/h to the Hazen-Williams
form without the program's division by 1000. -/
theorem C3_counterexample :
    headloss p_default 1 ≠ headloss_claimed p_default 1 := by
  apply ne_of_lt
  unfold headloss headloss_claimed
  rw [q_tramo_default]
  have hpow : ((299 : ℝ) / 1000 / 140) ^ (1.852 : ℝ) <
      ((299 : ℝ) / 140) ^ (1.852 : ℝ) :=
    Real.rpow_lt_rpow (by norm_num) (by norm_num) (by norm_num)
  have hd : (0 : ℝ) < p_default.dia ^ (-4.872 : ℝ) :=
    Real.rpow_pos_of_pos (by norm_num [p_default]) _
  have hS : (0 : ℝ) < p_default.S := by norm_num [p_default]
  have hc : (0 : ℝ) < 1.131 * 10 ^ (9 : ℕ) := by norm_num
  exact mul_lt_mul_of_pos_right
    (mul_lt_mul_of_pos_right (mul_lt_mul_of_pos_left hpow hc) hS) hd

/-- C3 (amended): row i's head loss equals
`1.131e9 * ((segmentFlow_Lph / 1000) / 140)^1.852 * step * dia^(-4.872)` —
the segment flow is converted from L/h to m³/h (divided by 1000) before
entering the Hazen-Williams form — and it is non-negative on every row of the
table. -/
theorem C3_amended (p : Inputs) (hq : 0 < p.q) (hS : 0 < p.S)
    (hdia : 0 < p.dia) (i : ℕ) (hi : i ≤ outlets p) :
    headloss p i =
      1.131 * 10 ^ (9 : ℕ) *
        (((outlets p : ℝ) - i) * p.q / 1000 / 140) ^ (1.852 : ℝ) * p.S *
        p.dia ^ (-4.872 : ℝ) ∧
      0 ≤ headloss p i := by
  constructor
  · unfold headloss
    rw [q_tramo_eq]
  · exact headloss_nonneg p hq hS hdia hi

/-- C3 (amended) witness at the default sidebar parameters, row 1. -/
theorem C3_amended_witness :
    0 < p_default.q ∧ (1 : ℕ) ≤ outlets p_default ∧
      0 ≤ headloss p_default 1 :=
  ⟨by norm_num [p_default], by rw [outlets_default]; norm_num,
    (C3_amended p_default (by norm_num [p_default]) (by norm_num [p_default])
      (by norm_num [p_default]) 1 (by rw [outlets_default]; norm_num)).2⟩

/-- C6: with at least two rows, the reported 95% travel time is the cumulative
travel time at the row with 1-based index `⌊N * 0.95⌋` — a nearest-rank lookup
with no interpolation, always a valid and non-NaN row — and it is not the
empirical half-of-total approximation `TT_95_empirical = TT_empirical / 2`:
at `q = 1, S = 1, L = 3.5, dia = 20` the lookup yields 3/5 of the total
rather than half of it. -/
theorem C6_nearest_rank (p : Inputs) (hq : 0 < p.q) (hS : 0 < p.S)
    (hdia : 0 < p.dia) (hN : 2 ≤ outlets p) :
    index_95 p = ⌊(outlets p : ℝ) * 0.95⌋₊ ∧
      1 ≤ index_95 p ∧ index_95 p ≤ outlets p ∧
      travel_time_95 p = t_acum p (index_95 p) ∧
      (t_acum p (index_95 p)).isSome = true ∧
      travel_time_95 p_three ≠ some (TT_95_empirical p_three) := by
  have hcast : (2 : ℝ) ≤ (outlets p : ℝ) := by exact_mod_cast hN
  have h0 : (0 : ℝ) ≤ (outlets p : ℝ) := by positivity
  have hlow : 1 ≤ index_95 p := by
    refine Nat.le_floor ?_
    push_cast
    linarith
  have hhigh : index_95 p ≤ outlets p := by
    have hle : (outlets p : ℝ) * 0.95 ≤ ((outlets p : ℕ) : ℝ) := by linarith
    have := Nat.floor_le_floor hle
    rwa [Nat.floor_natCast] at this
  refine ⟨rfl, hlow, hhigh, ?_, ?_, ?_⟩
  · unfold travel_time_95
    rw [if_pos ⟨hlow, hhigh⟩]
  · rw [t_acum_eq p hq hS hdia hN hlow hhigh]
    rfl
  · have hcond : 1 ≤ index_95 p_three ∧ index_95 p_three ≤ outlets p_three := by
      rw [index_95_three, outlets_three]
      omega
    unfold travel_time_95
    rw [if_pos hcond, index_95_three, t_acum_three_two]
    intro h
    have heq : 3 / 5 * TT_empirical p_three = TT_95_empirical p_three :=
      Option.some.inj h
    unfold TT_95_empirical at heq
    have hE := TT_empirical_three_pos
    linarith

/-- C6 witness at the default sidebar parameters. -/
theorem C6_witness :
    1 ≤ index_95 p_default ∧ index_95 p_default ≤ outlets p_default ∧
      travel_time_95 p_default = t_acum p_default (index_95 p_default) := by
  have h := C6_nearest_rank p_default (by norm_num [p_default])
    (by norm_num [p_default]) (by norm_num [p_default])
    (by rw [outlets_default]; norm_num)
  exact ⟨h.2.1, h.2.2.1, h.2.2.2.1⟩

/-- C9 counterexample: at `q = 1, S = 1, L = 1.5, dia = 20` (so `⌊L/S⌋ = 1`
and `L > S > 0`) the pipeline does not complete normally: the 95% lookup
index `int(1 * 0.95) = 0` is not one of the row labels (the table's only row
is row 1), so the 95% travel-time extraction fails instead of returning a
value. -/
theorem C9_counterexample : travel_time_95 p_onerow = none := by
  unfold travel_time_95
  rw [index_95_of_one outlets_onerow]
  rw [if_neg]
  rintro ⟨h1, -⟩
  omega

/-- C9 (amended): when `⌊L/S⌋ = 1` the table indeed consists of the single
row 1 whose cumulative length equals the spacing `S`, but the pipeline does
not complete normally: the sole row's flow is exactly zero, so its velocity
and cumulative travel time stay NaN (there is no earlier row to fill from),
and the 95% lookup index `int(N * 0.95) = 0` is not a row label, so the 95%
travel-time extraction fails. -/
theorem C9_amended (p : Inputs) (h1 : outlets p = 1) :
    long_acum p 1 = p.S ∧ q_tramo p 1 = 0 ∧ v_tramo p 1 = none ∧
      t_acum p 1 = none ∧ index_95 p = 0 ∧ travel_time_95 p = none := by
  have hq1 : q_tramo p 1 = 0 := by
    rw [q_tramo_eq, h1]
    norm_num
  have hz : v_raw p 1 = 0 := by
    unfold v_raw
    rw [hq1]
    norm_num
  have hv : v_tramo p 1 = none := by
    show v_tramo p (0 + 1) = none
    simp only [v_tramo]
    rw [if_pos hz]
  have hidx : index_95 p = 0 := index_95_of_one h1
  refine ⟨by unfold long_acum; norm_num, hq1, hv, ?_, hidx, ?_⟩
  · simp [t_acum, t_acum_anchored, t_tramo_scaled_anchored, t_tramo, hv]
  · unfold travel_time_95
    rw [hidx, if_neg]
    rintro ⟨hc, -⟩
    omega

/-- C9 (amended) witness at the one-row parameter set. -/
theorem C9_witness :
    outlets p_onerow = 1 ∧ long_acum p_onerow 1 = p_onerow.S ∧
      t_acum p_onerow 1 = none := by
  have h := C9_amended p_onerow outlets_onerow
  exact ⟨outlets_onerow, h.1, h.2.2.2.1⟩

/-- C10: the rescaling step modifies only the travel-time columns: whatever
anchor value replaces the empirical travel time in the scale factor, the
cumulative-length, segment-flow, velocity, per-row head-loss and cumulative
head-loss columns of the run are unchanged, and the head loss is computed from
the unscaled segment flow `q_tramo`. -/
theorem C10_frame (p : Inputs) (E : ℝ) (i : ℕ) :
    (runScript_anchored p E).long_acum i = (runScript p).long_acum i ∧
      (runScript_anchored p E).q_tramo i = (runScript p).q_tramo i ∧
      (runScript_anchored p E).v_tramo i = (runScript p).v_tramo i ∧
      (runScript_anchored p E).headloss i = (runScript p).headloss i ∧
      (runScript_anchored p E).HL_acum i = (runScript p).HL_acum i ∧
      (runScript p).headloss i =
        1.131 * 10 ^ (9 : ℕ) * (q_tramo p i / 1000 / 140) ^ (1.852 : ℝ) *
          p.S * p.dia ^ (-4.872 : ℝ) :=
  ⟨rfl, rfl, rfl, rfl, rfl, rfl⟩

end TimeAdvance
